import Mathlib

/-!
# Verification of `topology_check.py`

Shallow embedding of the three topology detectors of `src/topology_check.py`
(`check_overlap`, `check_gap`, `check_containment`).

Modelling choices:

* A polygonal geometry is modelled as a finite set of occupied unit grid
  cells (`Geom := Finset (Int × Int)`).  The shapely operations used by the
  source are modelled by their documented set semantics on this model:
  `area` is the number of cells, `intersection` is set intersection,
  `a.contains(b)` is `b ⊆ a` with `b` nonempty, `a.overlaps(b)` is
  "interiors intersect and neither is a subset of the other", `touches` is
  "disjoint but adjacent", `bounds` is the bounding box of the cells.
  Because the representation is canonical, geometrically equal results are
  equal values (which is what `drop_duplicates` compares).
* A GeoDataFrame is a list of geometries plus an association list of
  integer-valued attribute columns and a flag for a geographic CRS.
  The default `RangeIndex` is assumed, so row labels coincide with
  positions (`temp_index` holds `0, 1, ...`).
* A spatial-index query that raises is modelled by an oracle
  `qfail : Nat → Bool` saying which feature's query fails.  In
  `check_overlap` the bounds query sits in a `try/except` that warns and
  `continue`s; in `check_containment` the predicate query is unguarded, so
  a failure propagates out of the whole call (`Except.error`).
* `logging.warning` calls are modelled by a returned list of `Warning`
  values; `DataFrame.drop_duplicates` (keep first) by `dropDups`.
* Python rows are heterogeneous lists, so result rows are `List Val`; the
  source's in-loop membership test `sorted_ids not in data_overlaps`
  compares the bare two-element id list with the full rows, exactly as the
  Python `in` operator does.
-/

namespace TopoCheck

/-! ## Geometry model -/

abbrev Cell := Int × Int

abbrev Geom := Finset Cell

/-- Area of a geometry: number of occupied unit cells. -/
def garea (g : Geom) : ℚ := (g.card : ℚ)

/-- `a.contains(b)` : every point of `b` lies in `a` and `b` has interior. -/
def gcontains (a b : Geom) : Bool := decide (b ⊆ a ∧ b.Nonempty)

/-- `a.overlaps(b)` : interiors intersect, neither is contained in the other. -/
def gOverlaps (a b : Geom) : Bool :=
  decide ((a ∩ b).Nonempty ∧ ¬ a ⊆ b ∧ ¬ b ⊆ a)

/-- Two unit cells whose closures meet (share an edge or a corner). -/
def cellAdj (c d : Cell) : Bool :=
  decide ((c.1 - d.1).natAbs ≤ 1 ∧ (c.2 - d.2).natAbs ≤ 1)

/-- `a.touches(b)` : no shared interior, but the boundaries meet. -/
def gtouches (a b : Geom) : Bool :=
  decide (a ∩ b = ∅) && decide (∃ c ∈ a, ∃ d ∈ b, cellAdj c d = true)

/-- An axis-aligned bounding box. -/
structure Box where
  x1 : Int
  y1 : Int
  x2 : Int
  y2 : Int
deriving DecidableEq

/-- `geometry.bounds` : bounding box of the cells (`none` for an empty
geometry, whose bounds are NaN and match nothing in the index). -/
def gbounds (g : Geom) : Option Box :=
  if h : g.Nonempty then
    some ⟨(g.image Prod.fst).min' (h.image _), (g.image Prod.snd).min' (h.image _),
          (g.image Prod.fst).max' (h.image _), (g.image Prod.snd).max' (h.image _)⟩
  else none

/-- Closed-interval intersection test of two boxes. -/
def boxIntersects (a b : Box) : Bool :=
  decide (a.x1 ≤ b.x2 ∧ b.x1 ≤ a.x2 ∧ a.y1 ≤ b.y2 ∧ b.y1 ≤ a.y2)

/-- Geometry of feature `i` (out-of-range reads never happen on real data). -/
def geomAt (geoms : List Geom) (i : Nat) : Geom := geoms.getD i ∅

/-- `spatial_index.intersection(bounds)` : positions of all features whose
bounding box intersects the query box. -/
def queryBoundsIdx (geoms : List Geom) (b : Option Box) : List Nat :=
  match b with
  | none => []
  | some box =>
    (List.range geoms.length).filter fun i =>
      match gbounds (geomAt geoms i) with
      | none => false
      | some bi => boxIntersects box bi

/-! ## The GeoDataFrame model -/

/-- Values a result-row cell can hold (Python rows are heterogeneous). -/
inductive Val where
  | i (n : Int)
  | q (x : ℚ)
  | g (s : Geom)
  | ilist (l : List Int)
deriving DecidableEq

/-- A GeoDataFrame: geometry column, integer attribute columns (association
list in column order), and whether the CRS is geographic. -/
structure Gdf where
  geoms : List Geom
  attrs : List (String × List Int)
  geographic : Bool
deriving DecidableEq

/-- `gdf[name] = vals` : replace the column in place, or append it. -/
def setCol (attrs : List (String × List Int)) (name : String) (vals : List Int) :
    List (String × List Int) :=
  if name ∈ attrs.map Prod.fst then
    attrs.map fun p => if p.1 = name then (name, vals) else p
  else attrs ++ [(name, vals)]

/-- `del gdf[name]`. -/
def delCol (attrs : List (String × List Int)) (name : String) :
    List (String × List Int) :=
  attrs.filter fun p => p.1 ≠ name

/-- Read a column (empty when absent). -/
def getCol (attrs : List (String × List Int)) (name : String) : List Int :=
  ((attrs.find? fun p => p.1 = name).map Prod.snd).getD []

/-- `range(1, len(gdf) + 1)` : the auto-assigned sequential ids. -/
def seqIds (n : Nat) : List Int := (List.range n).map fun k => (k : Int) + 1

/-- `gdf.index` values under the default RangeIndex. -/
def idxVals (n : Nat) : List Int := (List.range n).map fun k => (k : Int)

/-- Diagnostics emitted through `logging.warning`. -/
inductive Warning where
  | geographicCRS
  | queryError (i : Nat)
  | noGaps
deriving DecidableEq

/-- What a detector hands back: warnings, the result frame's column names
and rows, and the (mutated) input GeoDataFrame. -/
structure DetectorOutput where
  warnings : List Warning
  resultCols : List String
  rows : List (List Val)
  gdf : Gdf
deriving DecidableEq

/-- Helper of `dropDups`: keep the elements not seen before. -/
def dropDupsAux {α : Type} [DecidableEq α] (seen : List α) : List α → List α
  | [] => []
  | x :: xs =>
    if x ∈ seen then dropDupsAux seen xs
    else x :: dropDupsAux (x :: seen) xs

/-- `drop_duplicates` keeping the first occurrence of every row. -/
def dropDups {α : Type} [DecidableEq α] (l : List α) : List α :=
  dropDupsAux [] l

/-! ## Shared id-assignment preamble (`check_overlap` / `check_containment`)

The source of both pair detectors starts with
```
if id_col == None:
    gdf["id"] = range(1, len(gdf) + 1)
    id_col = "id"
gdf["temp_index"] = gdf.index
```
-/

/-- Attribute columns after the optional sequential-id assignment. -/
def effAttrs (gdf : Gdf) (idCol : Option String) : List (String × List Int) :=
  match idCol with
  | none => setCol gdf.attrs "id" (seqIds gdf.geoms.length)
  | some _ => gdf.attrs

/-- The effective identifier column name. -/
def effIdCol : Option String → String
  | none => "id"
  | some c => c

/-- Attribute columns after the `temp_index` helper column is added. -/
def workAttrs (gdf : Gdf) (idCol : Option String) : List (String × List Int) :=
  setCol (effAttrs gdf idCol) "temp_index" (idxVals gdf.geoms.length)

/-- The id values the pair detectors read via `row[id_col]`. -/
def usedIds (gdf : Gdf) (idCol : Option String) : List Int :=
  getCol (workAttrs gdf idCol) (effIdCol idCol)

/-! ## `check_overlap` -/

/-- Body of the inner loop of `check_overlap`: for each retained candidate
`j`, skip on equal ids, compute the intersection and its area, and append a
row when the area reaches the threshold and the sorted id pair is not
already a member of the accumulated row list (the Python `in` test compares
the two-element id list against whole four-element rows). -/
def overlapBody (geoms : List Geom) (ids : List Int) (threshold : ℚ) (i : Nat)
    (data : List (List Val)) (j : Nat) : List (List Val) :=
  let idi := ids.getD i 0
  let idj := ids.getD j 0
  if idj = idi then data
  else
    let inter := geomAt geoms i ∩ geomAt geoms j
    let area := garea inter
    if threshold ≤ area then
      let lo := min idi idj
      let hi := max idi idj
      if [Val.i lo, Val.i hi] ∈ data then data
      else data ++ [[Val.i lo, Val.i hi, Val.g inter, Val.q area]]
    else data

/-- The inner loop of `check_overlap` over the retained candidates. -/
def overlapInner (geoms : List Geom) (ids : List Int) (threshold : ℚ) (i : Nat)
    (data : List (List Val)) (js : List Nat) : List (List Val) :=
  js.foldl (overlapBody geoms ids threshold i) data

/-- One outer-loop iteration of `check_overlap`: the bounds query (warn and
`continue` on failure), the `overlaps` filter on the candidates, then the
inner loop. -/
def overlapStep (geoms : List Geom) (ids : List Int) (threshold : ℚ)
    (qfail : Nat → Bool) (acc : List Warning × List (List Val)) (i : Nat) :
    List Warning × List (List Val) :=
  if qfail i then (acc.1 ++ [Warning.queryError i], acc.2)
  else
    let cands := queryBoundsIdx geoms (gbounds (geomAt geoms i))
    let overl := cands.filter fun j => gOverlaps (geomAt geoms j) (geomAt geoms i)
    (acc.1, overlapInner geoms ids threshold i acc.2 overl)

/-- The full iteration of `check_overlap` over the features, in the given
order (the source iterates in input order, `List.range n`). -/
def overlapScan (geoms : List Geom) (ids : List Int) (threshold : ℚ)
    (qfail : Nat → Bool) (order : List Nat) : List Warning × List (List Val) :=
  order.foldl (overlapStep geoms ids threshold qfail) ([], [])

/-- `check_overlap(gdf, id_col, threshold)`. -/
def checkOverlap (gdf : Gdf) (idCol : Option String) (threshold : ℚ)
    (qfail : Nat → Bool) : DetectorOutput :=
  let geoWarn := if gdf.geographic then [Warning.geographicCRS] else []
  let idc := effIdCol idCol
  let scan := overlapScan gdf.geoms (usedIds gdf idCol) threshold qfail
      (List.range gdf.geoms.length)
  { warnings := geoWarn ++ scan.1
    resultCols := [idc ++ "_1", idc ++ "_2", "geometry", "area"]
    rows := dropDups scan.2
    gdf := { gdf with attrs := delCol (workAttrs gdf idCol) "temp_index" } }

/-! ## `check_containment` -/

/-- Body of the inner loop of `check_containment`: skip on equal ids,
re-verify containment, set the `drop` flag on equal areas, and append a row
when the contained area reaches `min_area` and the sorted id pair is not
already a member of the accumulated row list (dead test, as in
`check_overlap`). -/
def containBody (geoms : List Geom) (ids : List Int) (minArea : ℚ) (i : Nat)
    (data : List (List Val)) (j : Nat) : List (List Val) :=
  let idi := ids.getD i 0
  let idj := ids.getD j 0
  if idj = idi then data
  else if gcontains (geomAt geoms i) (geomAt geoms j) then
    let area := garea (geomAt geoms j)
    let drop : Int := if area = garea (geomAt geoms i) then 1 else 0
    if minArea ≤ area then
      let lo := min idi idj
      let hi := max idi idj
      if [Val.i lo, Val.i hi] ∈ data then data
      else data ++ [[Val.i lo, Val.i hi, Val.g (geomAt geoms j), Val.q area, Val.i drop]]
    else data
  else data

/-- The inner loop of `check_containment` over the query candidates. -/
def containInner (geoms : List Geom) (ids : List Int) (minArea : ℚ) (i : Nat)
    (data : List (List Val)) (js : List Nat) : List (List Val) :=
  js.foldl (containBody geoms ids minArea i) data

/-- One outer-loop iteration of `check_containment` (after a successful
predicate query): candidates are the features the subject's geometry
contains, then the inner loop. -/
def containStep (geoms : List Geom) (ids : List Int) (minArea : ℚ)
    (data : List (List Val)) (i : Nat) : List (List Val) :=
  let cands := (List.range geoms.length).filter fun j =>
    gcontains (geomAt geoms i) (geomAt geoms j)
  containInner geoms ids minArea i data cands

/-- The outer loop of `check_containment`.  The predicate query is not
guarded by a per-feature `try/except`, so the first failing query raises
out of the loop. -/
def containLoop (geoms : List Geom) (ids : List Int) (minArea : ℚ)
    (qfail : Nat → Bool) : List Nat → List (List Val) → Except Nat (List (List Val))
  | [], data => Except.ok data
  | i :: rest, data =>
    if qfail i then Except.error i
    else containLoop geoms ids minArea qfail rest (containStep geoms ids minArea data i)

/-- `check_containment`'s iteration over the features in the given order. -/
def containScan (geoms : List Geom) (ids : List Int) (minArea : ℚ)
    (qfail : Nat → Bool) (order : List Nat) : Except Nat (List (List Val)) :=
  containLoop geoms ids minArea qfail order []

/-- `check_containment(gdf, id_col, min_area)`.  An unhandled exception is
logged and re-raised (`Except.error` carries the failing feature). -/
def checkContainment (gdf : Gdf) (idCol : Option String) (minArea : ℚ)
    (qfail : Nat → Bool) : Except Nat DetectorOutput :=
  let geoWarn := if gdf.geographic then [Warning.geographicCRS] else []
  let idc := effIdCol idCol
  match containScan gdf.geoms (usedIds gdf idCol) minArea qfail
      (List.range gdf.geoms.length) with
  | Except.error i => Except.error i
  | Except.ok data =>
    Except.ok
      { warnings := geoWarn
        resultCols := [idc ++ "_1", idc ++ "_2", "geometry", "area", "drop"]
        rows := dropDups data
        gdf := { gdf with attrs := delCol (workAttrs gdf idCol) "temp_index" } }

instance {ε α : Type} [DecidableEq ε] [DecidableEq α] : DecidableEq (Except ε α) := fun x y =>
  match x, y with
  | Except.ok a, Except.ok b =>
    if h : a = b then isTrue (by rw [h])
    else isFalse fun hh => h (Except.ok.inj hh)
  | Except.error a, Except.error b =>
    if h : a = b then isTrue (by rw [h])
    else isFalse fun hh => h (Except.error.inj hh)
  | Except.ok _, Except.error _ => isFalse fun hh => Except.noConfusion hh
  | Except.error _, Except.ok _ => isFalse fun hh => Except.noConfusion hh

/-- Rows of a `check_containment` call, empty when the call raised. -/
def containRowsOf : Except Nat DetectorOutput → List (List Val)
  | Except.ok o => o.rows
  | Except.error _ => []

/-- Attribute columns of the GeoDataFrame after a successful
`check_containment` call (empty when the call raised). -/
def containAttrsOf : Except Nat DetectorOutput → List (String × List Int)
  | Except.ok o => o.gdf.attrs
  | Except.error _ => []

/-! ## `check_gap`

The union's interior rings are computed on the cell model: a hole is a
bounded connected component of the complement of the union, found by flood
fill inside the bounding box grown by one cell. -/

/-- The four edge-neighbours of a cell. -/
def nbrs4 (c : Cell) : Finset Cell :=
  {(c.1 + 1, c.2), (c.1 - 1, c.2), (c.1, c.2 + 1), (c.1, c.2 - 1)}

/-- One step of flood fill inside `allowed`. -/
def spread (allowed s : Finset Cell) : Finset Cell :=
  s ∪ (s.biUnion nbrs4 ∩ allowed)

/-- Flood fill to a fixed point (the fuel bounds the number of rounds). -/
def flood (allowed : Finset Cell) : Nat → Finset Cell → Finset Cell
  | 0, s => s
  | fuel + 1, s =>
    let s' := spread allowed s
    if s' = s then s else flood allowed fuel s'

/-- All cells of a box. -/
def boxCells (b : Box) : Finset Cell :=
  Finset.product (Finset.Icc b.x1 b.x2) (Finset.Icc b.y1 b.y2)

/-- The box grown by one cell on every side. -/
def expand (b : Box) : Box := ⟨b.x1 - 1, b.y1 - 1, b.x2 + 1, b.y2 + 1⟩

/-- The cells on the frame of a box. -/
def borderCells (b : Box) : Finset Cell :=
  (boxCells b).filter fun c => c.1 = b.x1 ∨ c.1 = b.x2 ∨ c.2 = b.y1 ∨ c.2 = b.y2

/-- The integers from `a` to `b`, in order. -/
def intRange (a b : Int) : List Int :=
  (List.range (b + 1 - a).toNat).map fun k => a + (k : Int)

/-- The cells of a box, as a list in a fixed order. -/
def cellList (b : Box) : List Cell :=
  (intRange b.x1 b.x2).foldr
    (fun x acc => ((intRange b.y1 b.y2).map fun y => (x, y)) ++ acc) []

/-- Connected components of a cell set, grown by flood fill from the given
seed cells. -/
def comps (s : Finset Cell) : List Cell → List (Finset Cell)
  | [] => []
  | c :: rest =>
    if c ∈ s then
      let comp := flood s (s.card + 1) {c}
      comp :: comps (s \ comp) rest
    else comps s rest

/-- `polygon.interiors` : the holes of a geometry, as the bounded connected
components of its complement. -/
def interiorRings (g : Geom) : List Geom :=
  match gbounds g with
  | none => []
  | some b =>
    let eb := expand b
    let compl := boxCells eb \ g
    let ext := flood compl (compl.card + 1) (borderCells eb ∩ compl)
    let holes := compl \ ext
    comps holes (cellList eb)

/-- `dissolve` : the union of all geometries. -/
def unionAll (geoms : List Geom) : Geom := geoms.foldl (fun a g => a ∪ g) ∅

/-- The id values `check_gap` reads (it adds no `temp_index` column). -/
def gapIds (gdf : Gdf) (idCol : Option String) : List Int :=
  getCol (effAttrs gdf idCol) (effIdCol idCol)

/-- `data_temp_diss.interiors.values.tolist()` : one entry per row of the
dissolved frame; dissolving an empty frame yields no rows at all, any other
frame yields exactly one row holding the union's interior-ring list. -/
def dissInteriors (gdf : Gdf) : List (List Geom) :=
  if gdf.geoms.isEmpty then [] else [interiorRings (unionAll gdf.geoms)]

/-- `check_gap(gdf, id_col)`. -/
def checkGap (gdf : Gdf) (idCol : Option String) : DetectorOutput :=
  let idc := effIdCol idCol
  let ids := gapIds gdf idCol
  let gdfOut : Gdf := { gdf with attrs := effAttrs gdf idCol }
  if dissInteriors gdf = [] then
    { warnings := [Warning.noGaps]
      resultCols := [idc ++ "_1", idc ++ "_2", "geometry", "area"]
      rows := []
      gdf := gdfOut }
  else
    let rings := (dissInteriors gdf).headD []
    let rows := rings.map fun ring =>
      [Val.g ring,
       Val.ilist (((List.range gdf.geoms.length).filter fun j =>
          gtouches ring (geomAt gdf.geoms j)).map fun j => ids.getD j 0)]
    { warnings := []
      resultCols := ["geometry", "feature_touches"]
      rows := dropDups rows
      gdf := gdfOut }

/-! ## Derived row descriptions used by the statements -/

/-- The row `check_overlap` appends for subject `i` and candidate `j`. -/
def overlapRow (geoms : List Geom) (ids : List Int) (i j : Nat) : List Val :=
  [Val.i (min (ids.getD i 0) (ids.getD j 0)),
   Val.i (max (ids.getD i 0) (ids.getD j 0)),
   Val.g (geomAt geoms i ∩ geomAt geoms j),
   Val.q (garea (geomAt geoms i ∩ geomAt geoms j))]

/-- The row the inner loop of `check_overlap` produces for candidate `j`
(if any). -/
def overlapRowOpt (geoms : List Geom) (ids : List Int) (threshold : ℚ)
    (i j : Nat) : Option (List Val) :=
  if ids.getD j 0 = ids.getD i 0 then none
  else if threshold ≤ garea (geomAt geoms i ∩ geomAt geoms j) then
    some (overlapRow geoms ids i j)
  else none

/-- All rows iteration `i` of `check_overlap` appends. -/
def overlapRowsAt (geoms : List Geom) (ids : List Int) (threshold : ℚ)
    (i : Nat) : List (List Val) :=
  ((queryBoundsIdx geoms (gbounds (geomAt geoms i))).filter fun j =>
      gOverlaps (geomAt geoms j) (geomAt geoms i)).filterMap
    (overlapRowOpt geoms ids threshold i)

/-- The row `check_containment` appends for container `i` and contained `j`. -/
def containRow (geoms : List Geom) (ids : List Int) (i j : Nat) : List Val :=
  [Val.i (min (ids.getD i 0) (ids.getD j 0)),
   Val.i (max (ids.getD i 0) (ids.getD j 0)),
   Val.g (geomAt geoms j),
   Val.q (garea (geomAt geoms j)),
   Val.i (if garea (geomAt geoms j) = garea (geomAt geoms i) then 1 else 0)]

/-- The row the inner loop of `check_containment` produces for candidate
`j` (if any). -/
def containRowOpt (geoms : List Geom) (ids : List Int) (minArea : ℚ)
    (i j : Nat) : Option (List Val) :=
  if ids.getD j 0 = ids.getD i 0 then none
  else if gcontains (geomAt geoms i) (geomAt geoms j) then
    if minArea ≤ garea (geomAt geoms j) then some (containRow geoms ids i j)
    else none
  else none

/-- All rows iteration `i` of `check_containment` appends. -/
def containRowsAt (geoms : List Geom) (ids : List Int) (minArea : ℚ)
    (i : Nat) : List (List Val) :=
  (((List.range geoms.length).filter fun j =>
      gcontains (geomAt geoms i) (geomAt geoms j)).filterMap
    (containRowOpt geoms ids minArea i))

/-- Concatenation of a family of lists over a list of indices. -/
def catMap {α : Type} (f : Nat → List α) : List Nat → List α
  | [] => []
  | i :: is => f i ++ catMap f is

/-- The warnings the outer loop of `check_overlap` emits. -/
def overlapWarns (qfail : Nat → Bool) (order : List Nat) : List Warning :=
  order.filterMap fun i => if qfail i then some (Warning.queryError i) else none

/-- All rows `check_overlap` accumulates before deduplication. -/
def overlapData (geoms : List Geom) (ids : List Int) (threshold : ℚ)
    (qfail : Nat → Bool) (order : List Nat) : List (List Val) :=
  catMap (fun i => if qfail i then [] else overlapRowsAt geoms ids threshold i) order

/-- All rows `check_containment` accumulates before deduplication. -/
def containData (geoms : List Geom) (ids : List Int) (minArea : ℚ)
    (order : List Nat) : List (List Val) :=
  catMap (containRowsAt geoms ids minArea) order

/-- The id pair in the first two cells of a result row. -/
def pairOf : List Val → Option (Int × Int)
  | Val.i a :: Val.i b :: _ => some (a, b)
  | _ => none

/-- How many rows of a result carry the id pair `(a, b)`. -/
def pairCount (rows : List (List Val)) (a b : Int) : Nat :=
  (rows.filter fun r => pairOf r = some (a, b)).length

/-- The `drop` flag of a containment row. -/
def flagOf : List Val → Option Int
  | [_, _, _, _, Val.i d] => some d
  | _ => none

/-- The rows of a containment scan, empty when the scan raised. -/
def scanRowsOf : Except Nat (List (List Val)) → List (List Val)
  | Except.ok d => d
  | Except.error _ => []

/-! ## Concrete example data for the closed checks

`sqA` and `sqB` are 2×2 squares sharing a 1×2 strip; `cellC` is a unit
square contained in `sqA` and touching `sqB`. -/

def sqA : Geom := {(0, 0), (1, 0), (0, 1), (1, 1)}

def sqB : Geom := {(1, 0), (2, 0), (1, 1), (2, 1)}

def cellC : Geom := {(0, 0)}

/-- Three features: an overlap pair (ids 1, 2) and a containment pair
(ids 1, 3). -/
def exGdf : Gdf := { geoms := [sqA, sqB, cellC], attrs := [], geographic := false }

/-- A containment pair (ids 1, 2) in front of a third feature whose
predicate query will be made to fail. -/
def exGdfC : Gdf := { geoms := [sqA, cellC, sqB], attrs := [], geographic := false }

/-- Two byte-identical features. -/
def exGdfDup : Gdf := { geoms := [sqA, sqA], attrs := [], geographic := false }

/-- No features at all. -/
def exGdfEmpty : Gdf := { geoms := [], attrs := [], geographic := false }

/-- One lone unit square: its union has no interior rings. -/
def exGdfSquare : Gdf := { geoms := [cellC], attrs := [], geographic := false }

/-- A caller-supplied id column next to a column named `temp_index`. -/
def exGdfTmp : Gdf :=
  { geoms := [cellC], attrs := [("bID", [7]), ("temp_index", [5])], geographic := false }

/-- A caller who designates the column `temp_index` as the id column. -/
def exGdfTmpId : Gdf :=
  { geoms := [cellC], attrs := [("temp_index", [5])], geographic := false }

/-- The spatial-index query fails exactly for feature 2. -/
def exQfail2 : Nat → Bool := fun i => i = 2

/-! ## Generic lemmas about the helper functions -/

theorem mem_dropDupsAux {α : Type} [DecidableEq α] (seen l : List α) (a : α) :
    a ∈ dropDupsAux seen l ↔ a ∈ l ∧ a ∉ seen := by
  induction l generalizing seen with
  | nil => simp [dropDupsAux]
  | cons x xs ih =>
    simp only [dropDupsAux]
    by_cases hx : x ∈ seen
    · rw [if_pos hx, ih]
      simp only [List.mem_cons]
      constructor
      · rintro ⟨h1, h2⟩; exact ⟨Or.inr h1, h2⟩
      · rintro ⟨h1 | h1, h2⟩
        · exact absurd (h1 ▸ hx) h2
        · exact ⟨h1, h2⟩
    · rw [if_neg hx]
      simp only [List.mem_cons, ih, List.mem_cons]
      constructor
      · rintro (rfl | ⟨h1, h2⟩)
        · exact ⟨Or.inl rfl, hx⟩
        · exact ⟨Or.inr h1, fun hs => h2 (Or.inr hs)⟩
      · rintro ⟨rfl | h1, h2⟩
        · exact Or.inl rfl
        · by_cases hax : a = x
          · exact Or.inl hax
          · exact Or.inr ⟨h1, fun hs => hs.elim hax h2⟩

theorem nodup_dropDupsAux {α : Type} [DecidableEq α] (seen l : List α) :
    (dropDupsAux seen l).Nodup := by
  induction l generalizing seen with
  | nil => simp [dropDupsAux]
  | cons x xs ih =>
    simp only [dropDupsAux]
    by_cases hx : x ∈ seen
    · simpa [hx] using ih seen
    · rw [if_neg hx]
      refine List.nodup_cons.mpr ⟨?_, ih _⟩
      intro hmem
      exact ((mem_dropDupsAux _ _ _).1 hmem).2 (List.mem_cons_self _ _)

theorem mem_dropDups {α : Type} [DecidableEq α] (l : List α) (a : α) :
    a ∈ dropDups l ↔ a ∈ l := by
  simp [dropDups, mem_dropDupsAux]

theorem nodup_dropDups {α : Type} [DecidableEq α] (l : List α) :
    (dropDups l).Nodup := nodup_dropDupsAux [] l

theorem toFinset_dropDups {α : Type} [DecidableEq α] (l : List α) :
    (dropDups l).toFinset = l.toFinset := by
  ext a
  simp [List.mem_toFinset, mem_dropDups]

theorem length_dropDups {α : Type} [DecidableEq α] (l : List α) :
    (dropDups l).length = l.toFinset.card := by
  rw [← toFinset_dropDups, List.toFinset_card_of_nodup (nodup_dropDups l)]

theorem length_dropDups_le_of_subset {α : Type} [DecidableEq α] (l₁ l₂ : List α)
    (h : ∀ a ∈ l₁, a ∈ l₂) : (dropDups l₁).length ≤ (dropDups l₂).length := by
  rw [length_dropDups, length_dropDups]
  apply Finset.card_le_card
  intro a ha
  rw [List.mem_toFinset] at *
  exact h a ha

theorem nodup_all_eq {α : Type} (l : List α) (r : α) (hnd : l.Nodup)
    (hall : ∀ x ∈ l, x = r) (hmem : r ∈ l) : l = [r] := by
  cases l with
  | nil => cases hmem
  | cons x xs =>
    have hx : x = r := hall x (List.mem_cons_self _ _)
    subst hx
    cases xs with
    | nil => rfl
    | cons y ys =>
      have hy : y = x := hall y (by simp)
      subst hy
      simp at hnd

theorem length_filter_eq_one {α : Type} (l : List α) (p : α → Bool) (r : α)
    (hnd : l.Nodup) (hmem : r ∈ l) (hp : p r = true)
    (huniq : ∀ x ∈ l, p x = true → x = r) : (l.filter p).length = 1 := by
  have h1 : r ∈ l.filter p := List.mem_filter.mpr ⟨hmem, hp⟩
  have h2 : ∀ x ∈ l.filter p, x = r := fun x hx =>
    huniq x (List.mem_filter.mp hx).1 (List.mem_filter.mp hx).2
  rw [nodup_all_eq (l.filter p) r (hnd.filter p) h2 h1]
  rfl

theorem mem_catMap {α : Type} (f : Nat → List α) (l : List Nat) (a : α) :
    a ∈ catMap f l ↔ ∃ i ∈ l, a ∈ f i := by
  induction l with
  | nil => simp [catMap]
  | cons i is ih => simp [catMap, List.mem_append, ih]

theorem pair_not_mem {data : List (List Val)} {k : Nat}
    (h : ∀ r ∈ data, r.length = k) (hk : ¬ (2 = k)) (a b : Val) :
    [a, b] ∉ data :=
  fun hm => hk (h _ hm)

/-! ## Geometry lemmas -/

theorem gOverlaps_comm (a b : Geom) : gOverlaps a b = gOverlaps b a := by
  simp only [gOverlaps]
  apply decide_eq_decide.mpr
  constructor
  · rintro ⟨h1, h2, h3⟩
    exact ⟨by rwa [Finset.inter_comm], h3, h2⟩
  · rintro ⟨h1, h2, h3⟩
    exact ⟨by rwa [Finset.inter_comm], h3, h2⟩

theorem gbounds_le {g : Geom} {c : Cell} (hc : c ∈ g) :
    ∃ bx : Box, gbounds g = some bx ∧
      bx.x1 ≤ c.1 ∧ c.1 ≤ bx.x2 ∧ bx.y1 ≤ c.2 ∧ c.2 ≤ bx.y2 := by
  have hne : g.Nonempty := ⟨c, hc⟩
  refine ⟨_, by rw [gbounds, dif_pos hne], ?_, ?_, ?_, ?_⟩
  · exact Finset.min'_le _ _ (Finset.mem_image_of_mem _ hc)
  · exact Finset.le_max' _ _ (Finset.mem_image_of_mem _ hc)
  · exact Finset.min'_le _ _ (Finset.mem_image_of_mem _ hc)
  · exact Finset.le_max' _ _ (Finset.mem_image_of_mem _ hc)

theorem mem_queryBoundsIdx {geoms : List Geom} {i j : Nat} {c : Cell}
    (hj : j < geoms.length) (hci : c ∈ geomAt geoms i) (hcj : c ∈ geomAt geoms j) :
    j ∈ queryBoundsIdx geoms (gbounds (geomAt geoms i)) := by
  obtain ⟨bi, hbi, hi1, hi2, hi3, hi4⟩ := gbounds_le hci
  obtain ⟨bj, hbj, hj1, hj2, hj3, hj4⟩ := gbounds_le hcj
  rw [hbi]
  simp only [queryBoundsIdx]
  refine List.mem_filter.mpr ⟨List.mem_range.mpr hj, ?_⟩
  rw [hbj]
  simp only [boxIntersects, decide_eq_true_eq]
  omega

theorem mem_of_mem_queryBoundsIdx {geoms : List Geom} {j : Nat} {b : Option Box}
    (h : j ∈ queryBoundsIdx geoms b) : j < geoms.length := by
  cases b with
  | none => cases h
  | some box =>
    exact List.mem_range.mp (List.mem_filter.mp h).1

theorem ids_inj {ids : List Int} (hnd : ids.Nodup) {i j : Nat}
    (hi : i < ids.length) (hj : j < ids.length)
    (h : ids.getD i 0 = ids.getD j 0) : i = j := by
  rw [ids.getD_eq_getElem 0 hi, ids.getD_eq_getElem 0 hj] at h
  exact (List.Nodup.getElem_inj_iff hnd).mp h

theorem minmax_cases (a b c d : Int) (h1 : min a b = min c d)
    (h2 : max a b = max c d) : (a = c ∧ b = d) ∨ (a = d ∧ b = c) := by
  omega

/-! ## Characterizing the rows accumulated by `check_overlap` -/

theorem overlapRowOpt_length {geoms : List Geom} {ids : List Int} {t : ℚ}
    {i j : Nat} {r : List Val} (h : overlapRowOpt geoms ids t i j = some r) :
    r.length = 4 := by
  simp only [overlapRowOpt] at h
  split at h
  · cases h
  · split at h
    · cases h; rfl
    · cases h

theorem overlapRowOpt_eq_some {geoms : List Geom} {ids : List Int} {t : ℚ}
    {i j : Nat} {r : List Val} :
    overlapRowOpt geoms ids t i j = some r ↔
      ids.getD j 0 ≠ ids.getD i 0 ∧
      t ≤ garea (geomAt geoms i ∩ geomAt geoms j) ∧
      r = overlapRow geoms ids i j := by
  simp only [overlapRowOpt]
  split
  next heq =>
    constructor
    · intro h
      cases h
    · rintro ⟨hne, -, -⟩
      exact absurd heq hne
  next hne =>
    split
    next hle =>
      constructor
      · intro h
        exact ⟨hne, hle, (Option.some.inj h).symm⟩
      · rintro ⟨_, _, rfl⟩
        rfl
    next hnle =>
      constructor
      · intro h
        cases h
      · rintro ⟨h1, h2, rfl⟩
        exact absurd h2 hnle

theorem overlapBody_eq (geoms : List Geom) (ids : List Int) (t : ℚ) (i : Nat)
    (data : List (List Val)) (j : Nat) (h4 : ∀ r ∈ data, r.length = 4) :
    overlapBody geoms ids t i data j
      = data ++ (overlapRowOpt geoms ids t i j).toList := by
  simp only [overlapBody, overlapRowOpt, overlapRow]
  split
  · simp
  · split
    · rw [if_neg (pair_not_mem h4 (by omega) _ _)]
      simp
    · simp

theorem overlapInner_eq (geoms : List Geom) (ids : List Int) (t : ℚ) (i : Nat)
    (data : List (List Val)) (js : List Nat) (h4 : ∀ r ∈ data, r.length = 4) :
    overlapInner geoms ids t i data js
      = data ++ js.filterMap (overlapRowOpt geoms ids t i) := by
  induction js generalizing data with
  | nil => simp [overlapInner]
  | cons j js ih =>
    have hstep : overlapInner geoms ids t i data (j :: js)
        = overlapInner geoms ids t i (overlapBody geoms ids t i data j) js := rfl
    rw [hstep, overlapBody_eq _ _ _ _ _ _ h4]
    have h4' : ∀ r ∈ data ++ (overlapRowOpt geoms ids t i j).toList, r.length = 4 := by
      intro r hr
      rcases List.mem_append.mp hr with h | h
      · exact h4 r h
      · cases hopt : overlapRowOpt geoms ids t i j with
        | none => rw [hopt] at h; cases h
        | some r' =>
          rw [hopt] at h
          simp only [Option.toList_some, List.mem_singleton] at h
          subst h
          exact overlapRowOpt_length hopt
    rw [ih _ h4', List.append_assoc]
    congr 1
    cases hopt : overlapRowOpt geoms ids t i j <;>
      simp [hopt, List.filterMap_cons]

theorem overlapRowsAt_length (geoms : List Geom) (ids : List Int) (t : ℚ)
    (i : Nat) : ∀ r ∈ overlapRowsAt geoms ids t i, r.length = 4 := by
  intro r hr
  obtain ⟨j, _, hopt⟩ := List.mem_filterMap.mp hr
  exact overlapRowOpt_length hopt

theorem overlapData_length (geoms : List Geom) (ids : List Int) (t : ℚ)
    (qfail : Nat → Bool) (order : List Nat) :
    ∀ r ∈ overlapData geoms ids t qfail order, r.length = 4 := by
  intro r hr
  obtain ⟨i, _, hri⟩ := (mem_catMap _ _ _).mp hr
  by_cases hqf : qfail i = true
  · rw [if_pos hqf] at hri
    cases hri
  · rw [if_neg hqf] at hri
    exact overlapRowsAt_length _ _ _ _ r hri

theorem overlapScan_aux (geoms : List Geom) (ids : List Int) (t : ℚ)
    (qfail : Nat → Bool) (order : List Nat) (ws : List Warning)
    (data : List (List Val)) (h4 : ∀ r ∈ data, r.length = 4) :
    order.foldl (overlapStep geoms ids t qfail) (ws, data)
      = (ws ++ overlapWarns qfail order,
         data ++ overlapData geoms ids t qfail order) := by
  induction order generalizing ws data with
  | nil => simp [overlapWarns, overlapData, catMap]
  | cons i os ih =>
    rw [List.foldl_cons]
    by_cases hqf : qfail i = true
    · have hstep : overlapStep geoms ids t qfail (ws, data) i
          = (ws ++ [Warning.queryError i], data) := by
        simp [overlapStep, hqf]
      rw [hstep, ih _ _ h4]
      simp [overlapWarns, overlapData, catMap, hqf, List.filterMap_cons]
    · have hstep : overlapStep geoms ids t qfail (ws, data) i
          = (ws, data ++ overlapRowsAt geoms ids t i) := by
        simp only [overlapStep, hqf, if_false, Bool.false_eq_true]
        rw [overlapInner_eq _ _ _ _ _ _ h4]
        rfl
      have h4' : ∀ r ∈ data ++ overlapRowsAt geoms ids t i, r.length = 4 := by
        intro r hr
        rcases List.mem_append.mp hr with h | h
        · exact h4 r h
        · exact overlapRowsAt_length _ _ _ _ r h
      rw [hstep, ih _ _ h4']
      simp [overlapWarns, overlapData, catMap, hqf, List.filterMap_cons,
        List.append_assoc]

theorem overlapScan_eq (geoms : List Geom) (ids : List Int) (t : ℚ)
    (qfail : Nat → Bool) (order : List Nat) :
    overlapScan geoms ids t qfail order
      = (overlapWarns qfail order, overlapData geoms ids t qfail order) := by
  have h := overlapScan_aux geoms ids t qfail order [] [] (by simp)
  simpa [overlapScan] using h

theorem mem_overlapRowsAt {geoms : List Geom} {ids : List Int} {t : ℚ}
    {i : Nat} {r : List Val} :
    r ∈ overlapRowsAt geoms ids t i ↔
      ∃ j ∈ queryBoundsIdx geoms (gbounds (geomAt geoms i)),
        gOverlaps (geomAt geoms j) (geomAt geoms i) = true ∧
        overlapRowOpt geoms ids t i j = some r := by
  simp only [overlapRowsAt, List.mem_filterMap, List.mem_filter]
  constructor
  · rintro ⟨j, ⟨hj1, hj2⟩, hj3⟩
    exact ⟨j, hj1, hj2, hj3⟩
  · rintro ⟨j, hj1, hj2, hj3⟩
    exact ⟨j, ⟨hj1, hj2⟩, hj3⟩

theorem mem_overlapData {geoms : List Geom} {ids : List Int} {t : ℚ}
    {qfail : Nat → Bool} {order : List Nat} {r : List Val} :
    r ∈ overlapData geoms ids t qfail order ↔
      ∃ i ∈ order, qfail i = false ∧ r ∈ overlapRowsAt geoms ids t i := by
  rw [overlapData, mem_catMap]
  constructor
  · rintro ⟨i, hi, hr⟩
    by_cases hqf : qfail i = true
    · rw [if_pos hqf] at hr
      cases hr
    · rw [if_neg hqf] at hr
      exact ⟨i, hi, Bool.not_eq_true _ ▸ hqf, hr⟩
  · rintro ⟨i, hi, hqf, hr⟩
    refine ⟨i, hi, ?_⟩
    rw [if_neg (by simp [hqf])]
    exact hr

/-! ## Characterizing the rows accumulated by `check_containment` -/

theorem containRowOpt_length {geoms : List Geom} {ids : List Int} {mA : ℚ}
    {i j : Nat} {r : List Val} (h : containRowOpt geoms ids mA i j = some r) :
    r.length = 5 := by
  simp only [containRowOpt] at h
  split at h
  · cases h
  · split at h
    · split at h
      · cases h; rfl
      · cases h
    · cases h

theorem containRowOpt_eq_some {geoms : List Geom} {ids : List Int} {mA : ℚ}
    {i j : Nat} {r : List Val} :
    containRowOpt geoms ids mA i j = some r ↔
      ids.getD j 0 ≠ ids.getD i 0 ∧
      gcontains (geomAt geoms i) (geomAt geoms j) = true ∧
      mA ≤ garea (geomAt geoms j) ∧
      r = containRow geoms ids i j := by
  simp only [containRowOpt]
  split
  next heq =>
    constructor
    · intro h
      cases h
    · rintro ⟨hne, -, -, -⟩
      exact absurd heq hne
  next hne =>
    split
    next hco =>
      split
      next hle =>
        constructor
        · intro h
          exact ⟨hne, hco, hle, (Option.some.inj h).symm⟩
        · rintro ⟨-, -, -, rfl⟩
          rfl
      next hnle =>
        constructor
        · intro h
          cases h
        · rintro ⟨-, -, h2, rfl⟩
          exact absurd h2 hnle
    next hnco =>
      constructor
      · intro h
        cases h
      · rintro ⟨-, h1, -, -⟩
        exact absurd h1 hnco

theorem containBody_eq (geoms : List Geom) (ids : List Int) (mA : ℚ) (i : Nat)
    (data : List (List Val)) (j : Nat) (h5 : ∀ r ∈ data, r.length = 5) :
    containBody geoms ids mA i data j
      = data ++ (containRowOpt geoms ids mA i j).toList := by
  simp only [containBody, containRowOpt, containRow]
  split
  · simp
  · split
    · split
      · rw [if_neg (pair_not_mem h5 (by omega) _ _)]
        simp
      · simp
    · simp

theorem containInner_eq (geoms : List Geom) (ids : List Int) (mA : ℚ) (i : Nat)
    (data : List (List Val)) (js : List Nat) (h5 : ∀ r ∈ data, r.length = 5) :
    containInner geoms ids mA i data js
      = data ++ js.filterMap (containRowOpt geoms ids mA i) := by
  induction js generalizing data with
  | nil => simp [containInner]
  | cons j js ih =>
    have hstep : containInner geoms ids mA i data (j :: js)
        = containInner geoms ids mA i (containBody geoms ids mA i data j) js := rfl
    rw [hstep, containBody_eq _ _ _ _ _ _ h5]
    have h5' : ∀ r ∈ data ++ (containRowOpt geoms ids mA i j).toList, r.length = 5 := by
      intro r hr
      rcases List.mem_append.mp hr with h | h
      · exact h5 r h
      · cases hopt : containRowOpt geoms ids mA i j with
        | none => rw [hopt] at h; cases h
        | some r' =>
          rw [hopt] at h
          simp only [Option.toList_some, List.mem_singleton] at h
          subst h
          exact containRowOpt_length hopt
    rw [ih _ h5', List.append_assoc]
    congr 1
    cases hopt : containRowOpt geoms ids mA i j <;>
      simp [hopt, List.filterMap_cons]

theorem containRowsAt_length (geoms : List Geom) (ids : List Int) (mA : ℚ)
    (i : Nat) : ∀ r ∈ containRowsAt geoms ids mA i, r.length = 5 := by
  intro r hr
  obtain ⟨j, _, hopt⟩ := List.mem_filterMap.mp hr
  exact containRowOpt_length hopt

theorem containStep_eq (geoms : List Geom) (ids : List Int) (mA : ℚ)
    (data : List (List Val)) (i : Nat) (h5 : ∀ r ∈ data, r.length = 5) :
    containStep geoms ids mA data i = data ++ containRowsAt geoms ids mA i := by
  simp only [containStep]
  rw [containInner_eq _ _ _ _ _ _ h5]
  rfl

theorem containData_length (geoms : List Geom) (ids : List Int) (mA : ℚ)
    (order : List Nat) : ∀ r ∈ containData geoms ids mA order, r.length = 5 := by
  intro r hr
  obtain ⟨i, _, hri⟩ := (mem_catMap _ _ _).mp hr
  exact containRowsAt_length _ _ _ _ r hri

theorem containLoop_ok (geoms : List Geom) (ids : List Int) (mA : ℚ)
    (qfail : Nat → Bool) (order : List Nat) :
    ∀ data, (∀ i ∈ order, qfail i = false) → (∀ r ∈ data, r.length = 5) →
      containLoop geoms ids mA qfail order data
        = Except.ok (data ++ containData geoms ids mA order) := by
  induction order with
  | nil =>
    intro data _ _
    simp [containLoop, containData, catMap]
  | cons i os ih =>
    intro data hqf h5
    simp only [containLoop]
    rw [if_neg (by simp [hqf i (List.mem_cons_self _ _)])]
    rw [containStep_eq _ _ _ _ _ h5]
    have h5' : ∀ r ∈ data ++ containRowsAt geoms ids mA i, r.length = 5 := by
      intro r hr
      rcases List.mem_append.mp hr with h | h
      · exact h5 r h
      · exact containRowsAt_length _ _ _ _ r h
    rw [ih _ (fun k hk => hqf k (List.mem_cons_of_mem _ hk)) h5']
    simp [containData, catMap, List.append_assoc]

theorem containLoop_error (geoms : List Geom) (ids : List Int) (mA : ℚ)
    (qfail : Nat → Bool) (order : List Nat) :
    ∀ data, (∃ i ∈ order, qfail i = true) →
      ∃ k, containLoop geoms ids mA qfail order data = Except.error k ∧
        qfail k = true := by
  induction order with
  | nil =>
    rintro data ⟨i, hi, -⟩
    cases hi
  | cons i os ih =>
    rintro data ⟨k, hk, hkq⟩
    simp only [containLoop]
    by_cases hqf : qfail i = true
    · rw [if_pos hqf]
      exact ⟨i, rfl, hqf⟩
    · rw [if_neg hqf]
      rcases List.mem_cons.mp hk with rfl | hk'
      · exact absurd hkq hqf
      · exact ih _ ⟨k, hk', hkq⟩

theorem containLoop_ok_inv (geoms : List Geom) (ids : List Int) (mA : ℚ)
    (qfail : Nat → Bool) (order : List Nat) :
    ∀ data d, (∀ r ∈ data, r.length = 5) →
      containLoop geoms ids mA qfail order data = Except.ok d →
      d = data ++ containData geoms ids mA order := by
  induction order with
  | nil =>
    intro data d _ h
    cases h
    simp [containData, catMap]
  | cons i os ih =>
    intro data d h5 h
    simp only [containLoop] at h
    by_cases hqf : qfail i = true
    · rw [if_pos hqf] at h
      cases h
    · rw [if_neg hqf] at h
      rw [containStep_eq _ _ _ _ _ h5] at h
      have h5' : ∀ r ∈ data ++ containRowsAt geoms ids mA i, r.length = 5 := by
        intro r hr
        rcases List.mem_append.mp hr with hm | hm
        · exact h5 r hm
        · exact containRowsAt_length _ _ _ _ r hm
      rw [ih _ _ h5' h]
      simp [containData, catMap, List.append_assoc]

theorem mem_containRowsAt {geoms : List Geom} {ids : List Int} {mA : ℚ}
    {i : Nat} {r : List Val} :
    r ∈ containRowsAt geoms ids mA i ↔
      ∃ j, j < geoms.length ∧ containRowOpt geoms ids mA i j = some r := by
  simp only [containRowsAt, List.mem_filterMap, List.mem_filter]
  constructor
  · rintro ⟨j, ⟨hj1, -⟩, hj3⟩
    exact ⟨j, List.mem_range.mp hj1, hj3⟩
  · rintro ⟨j, hj1, hj3⟩
    refine ⟨j, ⟨List.mem_range.mpr hj1, ?_⟩, hj3⟩
    exact (containRowOpt_eq_some.mp hj3).2.1

theorem mem_containData {geoms : List Geom} {ids : List Int} {mA : ℚ}
    {order : List Nat} {r : List Val} :
    r ∈ containData geoms ids mA order ↔
      ∃ i ∈ order, r ∈ containRowsAt geoms ids mA i := by
  rw [containData, mem_catMap]

/-! ## Propositional views of the geometry predicates -/

theorem gOverlaps_prop {a b : Geom} :
    gOverlaps a b = true ↔ (a ∩ b).Nonempty ∧ ¬ a ⊆ b ∧ ¬ b ⊆ a := by
  simp [gOverlaps]

theorem gcontains_prop {a b : Geom} :
    gcontains a b = true ↔ b ⊆ a ∧ b.Nonempty := by
  simp [gcontains]

theorem gtouches_disjoint {a b : Geom} (h : gtouches a b = true) : a ∩ b = ∅ := by
  simp only [gtouches, Bool.and_eq_true, decide_eq_true_eq] at h
  exact h.1

/-! ## Detector-level rewriting lemmas -/

theorem checkOverlap_rows (gdf : Gdf) (idCol : Option String) (t : ℚ)
    (qfail : Nat → Bool) :
    (checkOverlap gdf idCol t qfail).rows
      = dropDups (overlapData gdf.geoms (usedIds gdf idCol) t qfail
          (List.range gdf.geoms.length)) := by
  simp [checkOverlap, overlapScan_eq]

theorem checkOverlap_warnings (gdf : Gdf) (idCol : Option String) (t : ℚ)
    (qfail : Nat → Bool) :
    (checkOverlap gdf idCol t qfail).warnings
      = (if gdf.geographic then [Warning.geographicCRS] else [])
          ++ overlapWarns qfail (List.range gdf.geoms.length) := by
  simp [checkOverlap, overlapScan_eq]

theorem checkOverlap_attrs (gdf : Gdf) (idCol : Option String) (t : ℚ)
    (qfail : Nat → Bool) :
    (checkOverlap gdf idCol t qfail).gdf.attrs
      = delCol (workAttrs gdf idCol) "temp_index" := rfl

theorem checkContainment_ok_rows (gdf : Gdf) (idCol : Option String) (mA : ℚ)
    (qfail : Nat → Bool)
    (hqf : ∀ i ∈ List.range gdf.geoms.length, qfail i = false) :
    containRowsOf (checkContainment gdf idCol mA qfail)
      = dropDups (containData gdf.geoms (usedIds gdf idCol) mA
          (List.range gdf.geoms.length)) := by
  have h : containScan gdf.geoms (usedIds gdf idCol) mA qfail
      (List.range gdf.geoms.length)
      = Except.ok (containData gdf.geoms (usedIds gdf idCol) mA
          (List.range gdf.geoms.length)) := by
    rw [containScan, containLoop_ok _ _ _ _ _ _ hqf (by simp)]
    simp
  simp [checkContainment, h, containRowsOf]

theorem checkContainment_ok_attrs (gdf : Gdf) (idCol : Option String) (mA : ℚ)
    (qfail : Nat → Bool)
    (hqf : ∀ i ∈ List.range gdf.geoms.length, qfail i = false) :
    containAttrsOf (checkContainment gdf idCol mA qfail)
      = delCol (workAttrs gdf idCol) "temp_index" := by
  have h : containScan gdf.geoms (usedIds gdf idCol) mA qfail
      (List.range gdf.geoms.length)
      = Except.ok (containData gdf.geoms (usedIds gdf idCol) mA
          (List.range gdf.geoms.length)) := by
    rw [containScan, containLoop_ok _ _ _ _ _ _ hqf (by simp)]
    simp
  simp [checkContainment, h, containAttrsOf]

theorem checkContainment_error (gdf : Gdf) (idCol : Option String) (mA : ℚ)
    (qfail : Nat → Bool)
    (hex : ∃ i ∈ List.range gdf.geoms.length, qfail i = true) :
    ∃ k, checkContainment gdf idCol mA qfail = Except.error k ∧
      qfail k = true := by
  obtain ⟨k, hk, hkq⟩ :=
    containLoop_error gdf.geoms (usedIds gdf idCol) mA qfail
      (List.range gdf.geoms.length) [] hex
  refine ⟨k, ?_, hkq⟩
  have h : containScan gdf.geoms (usedIds gdf idCol) mA qfail
      (List.range gdf.geoms.length) = Except.error k := by
    rw [containScan]
    exact hk
  simp [checkContainment, h]

theorem checkContainment_rows_char (gdf : Gdf) (idCol : Option String)
    (mA : ℚ) (qfail : Nat → Bool) (r : List Val)
    (hr : r ∈ containRowsOf (checkContainment gdf idCol mA qfail)) :
    ∃ i ∈ List.range gdf.geoms.length,
      r ∈ containRowsAt gdf.geoms (usedIds gdf idCol) mA i := by
  rcases hscan : containScan gdf.geoms (usedIds gdf idCol) mA qfail
      (List.range gdf.geoms.length) with k | d
  · rw [show containRowsOf (checkContainment gdf idCol mA qfail) = []
        from by simp [checkContainment, hscan, containRowsOf]] at hr
    cases hr
  · have hd : d = [] ++ containData gdf.geoms (usedIds gdf idCol) mA
        (List.range gdf.geoms.length) :=
      containLoop_ok_inv _ _ _ _ _ _ _ (by simp) hscan
    rw [show containRowsOf (checkContainment gdf idCol mA qfail) = dropDups d
        from by simp [checkContainment, hscan, containRowsOf]] at hr
    rw [mem_dropDups, hd, List.nil_append] at hr
    exact mem_containData.mp hr

/-! ## Pair uniqueness, the core argument -/

theorem overlap_pair_unique_core
    (geoms : List Geom) (ids : List Int) (t : ℚ) (qfail : Nat → Bool)
    (order : List Nat) (i j : Nat)
    (hnd : ids.Nodup) (hlen : ids.length = geoms.length)
    (hperm : order.Perm (List.range geoms.length))
    (hqfi : qfail i = false)
    (hij : i ≠ j) (hi : i < geoms.length) (hj : j < geoms.length)
    (hov : gOverlaps (geomAt geoms i) (geomAt geoms j) = true)
    (hth : t ≤ garea (geomAt geoms i ∩ geomAt geoms j)) :
    pairCount (dropDups (overlapData geoms ids t qfail order))
      (min (ids.getD i 0) (ids.getD j 0))
      (max (ids.getD i 0) (ids.getD j 0)) = 1 := by
  have hIdNe : ids.getD j 0 ≠ ids.getD i 0 := by
    intro h
    exact hij (ids_inj hnd (by omega) (by omega) h.symm)
  obtain ⟨c, hc⟩ := (gOverlaps_prop.mp hov).1
  have hci := (Finset.mem_inter.mp hc).1
  have hcj := (Finset.mem_inter.mp hc).2
  have hrowMem : overlapRow geoms ids i j ∈ overlapData geoms ids t qfail order :=
    mem_overlapData.mpr ⟨i, hperm.mem_iff.mpr (List.mem_range.mpr hi), hqfi,
      mem_overlapRowsAt.mpr ⟨j, mem_queryBoundsIdx hj hci hcj,
        by rw [gOverlaps_comm]; exact hov,
        overlapRowOpt_eq_some.mpr ⟨hIdNe, hth, rfl⟩⟩⟩
  rw [pairCount]
  apply length_filter_eq_one _ _ (overlapRow geoms ids i j) (nodup_dropDups _)
    ((mem_dropDups _ _).mpr hrowMem) (decide_eq_true rfl)
  intro x hx hpx
  rw [mem_dropDups] at hx
  obtain ⟨i', hio, -, hat⟩ := mem_overlapData.mp hx
  obtain ⟨j', hj'B, -, hopt⟩ := mem_overlapRowsAt.mp hat
  obtain ⟨hne', hth', rfl⟩ := overlapRowOpt_eq_some.mp hopt
  have hi' : i' < geoms.length := List.mem_range.mp (hperm.mem_iff.mp hio)
  have hj' : j' < geoms.length := mem_of_mem_queryBoundsIdx hj'B
  have hpx' := of_decide_eq_true hpx
  simp only [pairOf, overlapRow, Option.some.injEq, Prod.mk.injEq] at hpx'
  obtain ⟨hmin, hmax⟩ := hpx'
  rcases minmax_cases _ _ _ _ hmin hmax with ⟨h1, h2⟩ | ⟨h1, h2⟩
  · have hI : i' = i := ids_inj hnd (by omega) (by omega) h1
    have hJ : j' = j := ids_inj hnd (by omega) (by omega) h2
    rw [hI, hJ]
  · have hI : i' = j := ids_inj hnd (by omega) (by omega) h1
    have hJ : j' = i := ids_inj hnd (by omega) (by omega) h2
    rw [hI, hJ]
    simp [overlapRow, min_comm, max_comm, Finset.inter_comm]

theorem contain_pair_unique_core
    (geoms : List Geom) (ids : List Int) (mA : ℚ)
    (order : List Nat) (i j : Nat)
    (hnd : ids.Nodup) (hlen : ids.length = geoms.length)
    (hperm : order.Perm (List.range geoms.length))
    (hij : i ≠ j) (hi : i < geoms.length) (hj : j < geoms.length)
    (hco : gcontains (geomAt geoms i) (geomAt geoms j) = true)
    (hth : mA ≤ garea (geomAt geoms j)) :
    pairCount (dropDups (containData geoms ids mA order))
      (min (ids.getD i 0) (ids.getD j 0))
      (max (ids.getD i 0) (ids.getD j 0)) = 1 := by
  have hIdNe : ids.getD j 0 ≠ ids.getD i 0 := by
    intro h
    exact hij (ids_inj hnd (by omega) (by omega) h.symm)
  have hrowMem : containRow geoms ids i j ∈ containData geoms ids mA order :=
    mem_containData.mpr ⟨i, hperm.mem_iff.mpr (List.mem_range.mpr hi),
      mem_containRowsAt.mpr ⟨j, hj,
        containRowOpt_eq_some.mpr ⟨hIdNe, hco, hth, rfl⟩⟩⟩
  rw [pairCount]
  apply length_filter_eq_one _ _ (containRow geoms ids i j) (nodup_dropDups _)
    ((mem_dropDups _ _).mpr hrowMem) (decide_eq_true rfl)
  intro x hx hpx
  rw [mem_dropDups] at hx
  obtain ⟨i', hio, hat⟩ := mem_containData.mp hx
  obtain ⟨j', hj', hopt⟩ := mem_containRowsAt.mp hat
  obtain ⟨hne', hco', hth', rfl⟩ := containRowOpt_eq_some.mp hopt
  have hi' : i' < geoms.length := List.mem_range.mp (hperm.mem_iff.mp hio)
  have hpx' := of_decide_eq_true hpx
  simp only [pairOf, containRow, Option.some.injEq, Prod.mk.injEq] at hpx'
  obtain ⟨hmin, hmax⟩ := hpx'
  rcases minmax_cases _ _ _ _ hmin hmax with ⟨h1, h2⟩ | ⟨h1, h2⟩
  · have hI : i' = i := ids_inj hnd (by omega) (by omega) h1
    have hJ : j' = j := ids_inj hnd (by omega) (by omega) h2
    rw [hI, hJ]
  · have hI : i' = j := ids_inj hnd (by omega) (by omega) h1
    have hJ : j' = i := ids_inj hnd (by omega) (by omega) h2
    rw [hI, hJ] at hco' ⊢
    have hgeq : geomAt geoms i = geomAt geoms j :=
      Finset.Subset.antisymm (gcontains_prop.mp hco').1 (gcontains_prop.mp hco).1
    simp [containRow, min_comm, max_comm, hgeq]

/-! ## Column store lemmas -/

theorem getCol_cons (p : String × List Int) (ps : List (String × List Int))
    (m : String) :
    getCol (p :: ps) m = if p.1 = m then p.2 else getCol ps m := by
  simp only [getCol, List.find?_cons]
  by_cases h : p.1 = m
  · simp [h]
  · simp [h]

theorem getCol_map_replace (attrs : List (String × List Int)) (name : String)
    (vals : List Int) (hc : name ∈ attrs.map Prod.fst) :
    getCol (attrs.map fun p => if p.1 = name then (name, vals) else p) name
      = vals := by
  induction attrs with
  | nil => cases hc
  | cons p ps ih =>
    rw [List.map_cons]
    by_cases hp : p.1 = name
    · rw [if_pos hp, getCol_cons, if_pos rfl]
    · rw [if_neg hp, getCol_cons, if_neg hp]
      simp only [List.map_cons, List.mem_cons] at hc
      rcases hc with h | h
      · exact absurd h.symm hp
      · exact ih h

theorem getCol_map_replace_ne (attrs : List (String × List Int))
    (name m : String) (vals : List Int) (hm : m ≠ name) :
    getCol (attrs.map fun p => if p.1 = name then (name, vals) else p) m
      = getCol attrs m := by
  induction attrs with
  | nil => rfl
  | cons p ps ih =>
    rw [List.map_cons]
    by_cases hp : p.1 = name
    · rw [if_pos hp, getCol_cons, if_neg (fun h => hm h.symm), getCol_cons,
        if_neg (fun h => hm ((hp ▸ h : name = m)).symm)]
      exact ih
    · rw [if_neg hp, getCol_cons, getCol_cons]
      by_cases hpm : p.1 = m
      · rw [if_pos hpm, if_pos hpm]
      · rw [if_neg hpm, if_neg hpm]
        exact ih

theorem getCol_append_single_ne (attrs : List (String × List Int))
    (name m : String) (vals : List Int) (hm : m ≠ name) :
    getCol (attrs ++ [(name, vals)]) m = getCol attrs m := by
  induction attrs with
  | nil =>
    rw [List.nil_append, getCol_cons, if_neg (fun h => hm h.symm)]
  | cons p ps ih =>
    rw [List.cons_append, getCol_cons, getCol_cons]
    by_cases hpm : p.1 = m
    · rw [if_pos hpm, if_pos hpm]
    · rw [if_neg hpm, if_neg hpm]
      exact ih

theorem getCol_setCol_self (attrs : List (String × List Int)) (name : String)
    (vals : List Int) : getCol (setCol attrs name vals) name = vals := by
  rw [setCol]
  split
  next hc => exact getCol_map_replace attrs name vals hc
  next hc =>
    have h : ∀ p ∈ attrs, p.1 ≠ name := by
      intro p hp hpn
      exact hc (hpn ▸ List.mem_map_of_mem Prod.fst hp)
    induction attrs with
    | nil => rw [List.nil_append, getCol_cons, if_pos rfl]
    | cons p ps ih =>
      rw [List.cons_append, getCol_cons,
        if_neg (h p (List.mem_cons_self _ _))]
      exact ih (fun hm => hc (List.mem_cons_of_mem _ hm))
        (fun q hq => h q (List.mem_cons_of_mem _ hq))

theorem getCol_setCol_ne (attrs : List (String × List Int)) (name m : String)
    (vals : List Int) (hm : m ≠ name) :
    getCol (setCol attrs name vals) m = getCol attrs m := by
  rw [setCol]
  split
  next hc => exact getCol_map_replace_ne attrs name m vals hm
  next hc => exact getCol_append_single_ne attrs name m vals hm

theorem getCol_delCol_ne (attrs : List (String × List Int)) (name m : String)
    (hm : m ≠ name) : getCol (delCol attrs name) m = getCol attrs m := by
  induction attrs with
  | nil => rfl
  | cons p ps ih =>
    simp only [delCol, List.filter_cons]
    by_cases hp : p.1 = name
    · rw [if_neg (by simp [hp]), getCol_cons, if_neg (fun h => hm (hp ▸ h).symm)]
      exact ih
    · rw [if_pos (by simp [hp]), getCol_cons, getCol_cons]
      by_cases hpm : p.1 = m
      · rw [if_pos hpm, if_pos hpm]
      · rw [if_neg hpm, if_neg hpm]
        exact ih

theorem delCol_setCol (attrs : List (String × List Int)) (name : String)
    (vals : List Int) (h : name ∉ attrs.map Prod.fst) :
    delCol (setCol attrs name vals) name = attrs := by
  rw [setCol, if_neg h, delCol, List.filter_append]
  have h1 : attrs.filter (fun p => p.1 ≠ name) = attrs := by
    apply List.filter_eq_self.mpr
    intro p hp
    have hpn : p.1 ≠ name := fun hpn =>
      h (hpn ▸ List.mem_map_of_mem Prod.fst hp)
    simp [hpn]
  rw [h1]
  simp

theorem not_mem_map_fst_setCol {attrs : List (String × List Int)}
    {m name : String} {vals : List Int} (hm : m ∉ attrs.map Prod.fst)
    (hne : m ≠ name) : m ∉ (setCol attrs name vals).map Prod.fst := by
  rw [setCol]
  split
  · intro hmem
    obtain ⟨p, hp, hfst⟩ := List.mem_map.mp hmem
    obtain ⟨q, hq, rfl⟩ := List.mem_map.mp hp
    by_cases hqn : q.1 = name
    · rw [if_pos hqn] at hfst
      exact hne hfst.symm
    · rw [if_neg hqn] at hfst
      exact hm (hfst ▸ List.mem_map_of_mem Prod.fst hq)
  · intro hmem
    rw [List.map_append, List.mem_append] at hmem
    rcases hmem with hmem | hmem
    · exact hm hmem
    · simp only [List.map_cons, List.map_nil, List.mem_singleton] at hmem
      exact hne hmem

theorem usedIds_none (gdf : Gdf) :
    usedIds gdf none = seqIds gdf.geoms.length := by
  rw [usedIds, workAttrs]
  show getCol (setCol (effAttrs gdf none) "temp_index" _) "id" = _
  rw [getCol_setCol_ne _ _ _ _ (by decide)]
  rw [effAttrs]
  exact getCol_setCol_self _ _ _

theorem usedIds_some (gdf : Gdf) (c : String) (hc : c ≠ "temp_index") :
    usedIds gdf (some c) = getCol gdf.attrs c := by
  rw [usedIds, workAttrs]
  exact getCol_setCol_ne _ _ _ _ hc

theorem checkGap_attrs (gdf : Gdf) (idCol : Option String) :
    (checkGap gdf idCol).gdf.attrs = effAttrs gdf idCol := by
  rw [checkGap]
  split <;> rfl

/-! ## The claims -/

/-- C1: for a FeatureSet with unique feature ids, every pair of distinct
features that qualifies as overlapping above the threshold (for
`check_overlap`) or containing above the minimum area (for
`check_containment`) yields exactly one result record for the unordered
id pair — never one per iteration direction — and this count is
independent of the iteration order over the features. -/
theorem claim_pair_uniqueness
    (gdf : Gdf) (idCol : Option String) (t mA : ℚ) (orderO orderC : List Nat)
    (i j i' j' : Nat)
    (hnd : (usedIds gdf idCol).Nodup)
    (hlen : (usedIds gdf idCol).length = gdf.geoms.length)
    (hpo : orderO.Perm (List.range gdf.geoms.length))
    (hpc : orderC.Perm (List.range gdf.geoms.length))
    (hij : i ≠ j) (hi : i < gdf.geoms.length) (hj : j < gdf.geoms.length)
    (hov : gOverlaps (geomAt gdf.geoms i) (geomAt gdf.geoms j) = true)
    (hth : t ≤ garea (geomAt gdf.geoms i ∩ geomAt gdf.geoms j))
    (hij' : i' ≠ j') (hi' : i' < gdf.geoms.length) (hj' : j' < gdf.geoms.length)
    (hco : gcontains (geomAt gdf.geoms i') (geomAt gdf.geoms j') = true)
    (hmA : mA ≤ garea (geomAt gdf.geoms j')) :
    pairCount (checkOverlap gdf idCol t (fun _ => false)).rows
        (min ((usedIds gdf idCol).getD i 0) ((usedIds gdf idCol).getD j 0))
        (max ((usedIds gdf idCol).getD i 0) ((usedIds gdf idCol).getD j 0)) = 1 ∧
    pairCount
        (dropDups (overlapScan gdf.geoms (usedIds gdf idCol) t
          (fun _ => false) orderO).2)
        (min ((usedIds gdf idCol).getD i 0) ((usedIds gdf idCol).getD j 0))
        (max ((usedIds gdf idCol).getD i 0) ((usedIds gdf idCol).getD j 0)) = 1 ∧
    pairCount (containRowsOf (checkContainment gdf idCol mA (fun _ => false)))
        (min ((usedIds gdf idCol).getD i' 0) ((usedIds gdf idCol).getD j' 0))
        (max ((usedIds gdf idCol).getD i' 0) ((usedIds gdf idCol).getD j' 0)) = 1 ∧
    pairCount
        (dropDups (scanRowsOf (containScan gdf.geoms (usedIds gdf idCol) mA
          (fun _ => false) orderC)))
        (min ((usedIds gdf idCol).getD i' 0) ((usedIds gdf idCol).getD j' 0))
        (max ((usedIds gdf idCol).getD i' 0) ((usedIds gdf idCol).getD j' 0)) = 1 := by
  refine ⟨?_, ?_, ?_, ?_⟩
  · rw [checkOverlap_rows]
    exact overlap_pair_unique_core _ _ _ _ _ i j hnd hlen (List.Perm.refl _)
      rfl hij hi hj hov hth
  · rw [overlapScan_eq]
    exact overlap_pair_unique_core _ _ _ _ _ i j hnd hlen hpo
      rfl hij hi hj hov hth
  · rw [checkContainment_ok_rows _ _ _ _ (fun _ _ => rfl)]
    exact contain_pair_unique_core _ _ _ _ i' j' hnd hlen (List.Perm.refl _)
      hij' hi' hj' hco hmA
  · have hscan : containScan gdf.geoms (usedIds gdf idCol) mA
        (fun _ => false) orderC
        = Except.ok (containData gdf.geoms (usedIds gdf idCol) mA orderC) := by
      rw [containScan, containLoop_ok _ _ _ _ _ _ (fun _ _ => rfl) (by simp)]
      simp
    rw [hscan]
    exact contain_pair_unique_core _ _ _ _ i' j' hnd hlen hpc
      hij' hi' hj' hco hmA

/-- Closed check of C1 on `exGdf`, with two scrambled iteration orders. -/
theorem claim_pair_uniqueness_check :
    pairCount (checkOverlap exGdf none 1 (fun _ => false)).rows
        (min ((usedIds exGdf none).getD 0 0) ((usedIds exGdf none).getD 1 0))
        (max ((usedIds exGdf none).getD 0 0) ((usedIds exGdf none).getD 1 0)) = 1 ∧
    pairCount
        (dropDups (overlapScan exGdf.geoms (usedIds exGdf none) 1
          (fun _ => false) [2, 0, 1]).2)
        (min ((usedIds exGdf none).getD 0 0) ((usedIds exGdf none).getD 1 0))
        (max ((usedIds exGdf none).getD 0 0) ((usedIds exGdf none).getD 1 0)) = 1 ∧
    pairCount (containRowsOf (checkContainment exGdf none 1 (fun _ => false)))
        (min ((usedIds exGdf none).getD 0 0) ((usedIds exGdf none).getD 2 0))
        (max ((usedIds exGdf none).getD 0 0) ((usedIds exGdf none).getD 2 0)) = 1 ∧
    pairCount
        (dropDups (scanRowsOf (containScan exGdf.geoms (usedIds exGdf none) 1
          (fun _ => false) [1, 2, 0])))
        (min ((usedIds exGdf none).getD 0 0) ((usedIds exGdf none).getD 2 0))
        (max ((usedIds exGdf none).getD 0 0) ((usedIds exGdf none).getD 2 0)) = 1 :=
  claim_pair_uniqueness exGdf none 1 1 [2, 0, 1] [1, 2, 0] 0 1 0 2
    (by decide) (by decide) (by decide) (by decide) (by decide) (by decide)
    (by decide) (by decide) (by decide) (by decide) (by decide) (by decide)
    (by decide) (by decide)

/-- C5: every record of `check_overlap` and of a successful
`check_containment` stores its id pair sorted, with the first id strictly
below the second (hence `id_a ≠ id_b`). -/
theorem claim_sorted_pairs (gdf : Gdf) (idCol : Option String) (t mA : ℚ)
    (qfail qfail' : Nat → Bool) (hnd : (usedIds gdf idCol).Nodup) :
    (∀ r ∈ (checkOverlap gdf idCol t qfail).rows,
       ∃ a b, pairOf r = some (a, b) ∧ a < b) ∧
    (∀ r ∈ containRowsOf (checkContainment gdf idCol mA qfail'),
       ∃ a b, pairOf r = some (a, b) ∧ a < b) := by
  constructor
  · intro r hr
    rw [checkOverlap_rows, mem_dropDups] at hr
    obtain ⟨i, -, -, hat⟩ := mem_overlapData.mp hr
    obtain ⟨j, -, -, hopt⟩ := mem_overlapRowsAt.mp hat
    obtain ⟨hne, -, rfl⟩ := overlapRowOpt_eq_some.mp hopt
    exact ⟨_, _, rfl, min_lt_max.mpr (Ne.symm hne)⟩
  · intro r hr
    obtain ⟨i, -, hat⟩ := checkContainment_rows_char _ _ _ _ r hr
    obtain ⟨j, -, hopt⟩ := mem_containRowsAt.mp hat
    obtain ⟨hne, -, -, rfl⟩ := containRowOpt_eq_some.mp hopt
    exact ⟨_, _, rfl, min_lt_max.mpr (Ne.symm hne)⟩

/-- Closed check of C5: the first overlap record of `exGdf` carries a
strictly sorted id pair. -/
theorem claim_sorted_pairs_check :
    ∃ a b, pairOf ((checkOverlap exGdf none 1 (fun _ => false)).rows.getD 0 [])
        = some (a, b) ∧ a < b :=
  (claim_sorted_pairs exGdf none 1 0 (fun _ => false) (fun _ => false)
      (by decide)).1 _ (by decide)

/-- C7: `check_overlap` records a pair only on proper partial overlap —
two features that merely touch, or where one contains the other, produce
no record for their id pair. -/
theorem claim_proper_overlap_only (gdf : Gdf) (idCol : Option String)
    (t : ℚ) (qfail : Nat → Bool) (i j : Nat)
    (hnd : (usedIds gdf idCol).Nodup)
    (hlen : (usedIds gdf idCol).length = gdf.geoms.length)
    (hi : i < gdf.geoms.length) (hj : j < gdf.geoms.length)
    (h : gtouches (geomAt gdf.geoms i) (geomAt gdf.geoms j) = true ∨
         gcontains (geomAt gdf.geoms i) (geomAt gdf.geoms j) = true ∨
         gcontains (geomAt gdf.geoms j) (geomAt gdf.geoms i) = true) :
    pairCount (checkOverlap gdf idCol t qfail).rows
      (min ((usedIds gdf idCol).getD i 0) ((usedIds gdf idCol).getD j 0))
      (max ((usedIds gdf idCol).getD i 0) ((usedIds gdf idCol).getD j 0)) = 0 := by
  have key : gOverlaps (geomAt gdf.geoms j) (geomAt gdf.geoms i) ≠ true ∧
      gOverlaps (geomAt gdf.geoms i) (geomAt gdf.geoms j) ≠ true := by
    rcases h with ht | hc | hc
    · have hdisj := gtouches_disjoint ht
      constructor
      · intro hov
        obtain ⟨c, hc⟩ := (gOverlaps_prop.mp hov).1
        have : c ∈ geomAt gdf.geoms i ∩ geomAt gdf.geoms j := by
          rw [Finset.inter_comm]
          exact hc
        rw [hdisj] at this
        exact absurd this (Finset.not_mem_empty c)
      · intro hov
        obtain ⟨c, hc⟩ := (gOverlaps_prop.mp hov).1
        rw [hdisj] at hc
        exact absurd hc (Finset.not_mem_empty c)
    · exact ⟨fun hov => (gOverlaps_prop.mp hov).2.1 (gcontains_prop.mp hc).1,
        fun hov => (gOverlaps_prop.mp hov).2.2 (gcontains_prop.mp hc).1⟩
    · exact ⟨fun hov => (gOverlaps_prop.mp hov).2.2 (gcontains_prop.mp hc).1,
        fun hov => (gOverlaps_prop.mp hov).2.1 (gcontains_prop.mp hc).1⟩
  rw [checkOverlap_rows, pairCount, List.length_eq_zero]
  rw [List.filter_eq_nil_iff]
  intro x hx hpx
  rw [mem_dropDups] at hx
  obtain ⟨i', hio, -, hat⟩ := mem_overlapData.mp hx
  obtain ⟨j', hj'B, hov', hopt⟩ := mem_overlapRowsAt.mp hat
  obtain ⟨hne', -, rfl⟩ := overlapRowOpt_eq_some.mp hopt
  have hi' : i' < gdf.geoms.length := List.mem_range.mp hio
  have hj' : j' < gdf.geoms.length := mem_of_mem_queryBoundsIdx hj'B
  have hpx' := of_decide_eq_true hpx
  simp only [pairOf, overlapRow, Option.some.injEq, Prod.mk.injEq] at hpx'
  obtain ⟨hmin, hmax⟩ := hpx'
  rcases minmax_cases _ _ _ _ hmin hmax with ⟨h1, h2⟩ | ⟨h1, h2⟩
  · have hI : i' = i := ids_inj hnd (by omega) (by omega) h1
    have hJ : j' = j := ids_inj hnd (by omega) (by omega) h2
    rw [hI, hJ] at hov'
    exact key.1 hov'
  · have hI : i' = j := ids_inj hnd (by omega) (by omega) h1
    have hJ : j' = i := ids_inj hnd (by omega) (by omega) h2
    rw [hI, hJ] at hov'
    exact key.2 hov'

/-- Closed check of C7 on `exGdf`: the containing pair (ids 1, 3) and the
touching pair (ids 2, 3) produce no overlap record. -/
theorem claim_proper_overlap_only_check :
    pairCount (checkOverlap exGdf none 0 (fun _ => false)).rows
      (min ((usedIds exGdf none).getD 0 0) ((usedIds exGdf none).getD 2 0))
      (max ((usedIds exGdf none).getD 0 0) ((usedIds exGdf none).getD 2 0)) = 0 ∧
    pairCount (checkOverlap exGdf none 0 (fun _ => false)).rows
      (min ((usedIds exGdf none).getD 1 0) ((usedIds exGdf none).getD 2 0))
      (max ((usedIds exGdf none).getD 1 0) ((usedIds exGdf none).getD 2 0)) = 0 :=
  ⟨claim_proper_overlap_only exGdf none 0 (fun _ => false) 0 2
      (by decide) (by decide) (by decide) (by decide) (Or.inr (Or.inl (by decide))),
   claim_proper_overlap_only exGdf none 0 (fun _ => false) 1 2
      (by decide) (by decide) (by decide) (by decide) (Or.inl (by decide))⟩

/-- C8: raising the overlap area threshold or the containment minimum
area never increases the number of result records. -/
theorem claim_threshold_monotone (gdf : Gdf) (idCol : Option String)
    (qfail : Nat → Bool) (t₁ t₂ mA₁ mA₂ : ℚ)
    (ht : t₁ ≤ t₂) (hmA : mA₁ ≤ mA₂) :
    (checkOverlap gdf idCol t₂ qfail).rows.length
      ≤ (checkOverlap gdf idCol t₁ qfail).rows.length ∧
    (containRowsOf (checkContainment gdf idCol mA₂ qfail)).length
      ≤ (containRowsOf (checkContainment gdf idCol mA₁ qfail)).length := by
  constructor
  · rw [checkOverlap_rows, checkOverlap_rows]
    apply length_dropDups_le_of_subset
    intro r hr
    obtain ⟨i, hio, hqf, hat⟩ := mem_overlapData.mp hr
    obtain ⟨j, hjB, hov, hopt⟩ := mem_overlapRowsAt.mp hat
    obtain ⟨hne, hle, rfl⟩ := overlapRowOpt_eq_some.mp hopt
    exact mem_overlapData.mpr ⟨i, hio, hqf, mem_overlapRowsAt.mpr
      ⟨j, hjB, hov, overlapRowOpt_eq_some.mpr ⟨hne, ht.trans hle, rfl⟩⟩⟩
  · by_cases hex : ∃ k ∈ List.range gdf.geoms.length, qfail k = true
    · obtain ⟨k₂, hk₂, -⟩ := checkContainment_error gdf idCol mA₂ qfail hex
      obtain ⟨k₁, hk₁, -⟩ := checkContainment_error gdf idCol mA₁ qfail hex
      rw [hk₂, hk₁]
      exact Nat.le_refl _
    · have hqf : ∀ k ∈ List.range gdf.geoms.length, qfail k = false := by
        intro k hk
        by_contra hkk
        exact hex ⟨k, hk, by revert hkk; cases qfail k <;> simp⟩
      rw [checkContainment_ok_rows _ _ _ _ hqf, checkContainment_ok_rows _ _ _ _ hqf]
      apply length_dropDups_le_of_subset
      intro r hr
      obtain ⟨i, hio, hat⟩ := mem_containData.mp hr
      obtain ⟨j, hjlt, hopt⟩ := mem_containRowsAt.mp hat
      obtain ⟨hne, hco, hle, rfl⟩ := containRowOpt_eq_some.mp hopt
      exact mem_containData.mpr ⟨i, hio, mem_containRowsAt.mpr
        ⟨j, hjlt, containRowOpt_eq_some.mpr ⟨hne, hco, hmA.trans hle, rfl⟩⟩⟩

/-- Closed check of C8 on `exGdf`. -/
theorem claim_threshold_monotone_check :
    (checkOverlap exGdf none 2 (fun _ => false)).rows.length
      ≤ (checkOverlap exGdf none 1 (fun _ => false)).rows.length ∧
    (containRowsOf (checkContainment exGdf none 2 (fun _ => false))).length
      ≤ (containRowsOf (checkContainment exGdf none 0 (fun _ => false))).length :=
  claim_threshold_monotone exGdf none (fun _ => false) 1 2 0 2
    (by decide) (by decide)

/-- C4: the `drop` (exact-duplicate) flag of a verified containment record
is set exactly when the contained feature's area equals the containing
feature's area; two byte-identical features yield exactly one containment
record for their pair, with the flag set. -/
theorem claim_duplicate_flag (gdf : Gdf) (idCol : Option String) (mA : ℚ)
    (i j : Nat)
    (hnd : (usedIds gdf idCol).Nodup)
    (hlen : (usedIds gdf idCol).length = gdf.geoms.length)
    (hij : i ≠ j) (hi : i < gdf.geoms.length) (hj : j < gdf.geoms.length)
    (hgeq : geomAt gdf.geoms i = geomAt gdf.geoms j)
    (hnem : (geomAt gdf.geoms j).Nonempty)
    (hmA : mA ≤ garea (geomAt gdf.geoms j)) :
    (∀ r ∈ containRowsOf (checkContainment gdf idCol mA (fun _ => false)),
       ∃ i' j', i' < gdf.geoms.length ∧ j' < gdf.geoms.length ∧
         gcontains (geomAt gdf.geoms i') (geomAt gdf.geoms j') = true ∧
         r = containRow gdf.geoms (usedIds gdf idCol) i' j' ∧
         (flagOf r = some 1 ↔
           garea (geomAt gdf.geoms j') = garea (geomAt gdf.geoms i'))) ∧
    pairCount (containRowsOf (checkContainment gdf idCol mA (fun _ => false)))
      (min ((usedIds gdf idCol).getD i 0) ((usedIds gdf idCol).getD j 0))
      (max ((usedIds gdf idCol).getD i 0) ((usedIds gdf idCol).getD j 0)) = 1 ∧
    (∀ r ∈ containRowsOf (checkContainment gdf idCol mA (fun _ => false)),
       pairOf r = some
         (min ((usedIds gdf idCol).getD i 0) ((usedIds gdf idCol).getD j 0),
          max ((usedIds gdf idCol).getD i 0) ((usedIds gdf idCol).getD j 0)) →
       flagOf r = some 1) := by
  have hco : gcontains (geomAt gdf.geoms i) (geomAt gdf.geoms j) = true :=
    gcontains_prop.mpr ⟨by rw [hgeq], hnem⟩
  refine ⟨?_, ?_, ?_⟩
  · intro r hr
    obtain ⟨i', hio, hat⟩ := checkContainment_rows_char _ _ _ _ r hr
    obtain ⟨j', hj', hopt⟩ := mem_containRowsAt.mp hat
    obtain ⟨hne', hco', -, rfl⟩ := containRowOpt_eq_some.mp hopt
    refine ⟨i', j', List.mem_range.mp hio, hj', hco', rfl, ?_⟩
    by_cases hq : garea (geomAt gdf.geoms j') = garea (geomAt gdf.geoms i')
    · simp [containRow, flagOf, hq]
    · simp [containRow, flagOf, hq]
  · rw [checkContainment_ok_rows _ _ _ _ (fun _ _ => rfl)]
    exact contain_pair_unique_core _ _ _ _ i j hnd hlen (List.Perm.refl _)
      hij hi hj hco hmA
  · intro r hr hp
    obtain ⟨i', hio, hat⟩ := checkContainment_rows_char _ _ _ _ r hr
    obtain ⟨j', hj', hopt⟩ := mem_containRowsAt.mp hat
    obtain ⟨hne', hco', -, rfl⟩ := containRowOpt_eq_some.mp hopt
    have hi' : i' < gdf.geoms.length := List.mem_range.mp hio
    simp only [pairOf, containRow, Option.some.injEq, Prod.mk.injEq] at hp
    obtain ⟨hmin, hmax⟩ := hp
    rcases minmax_cases _ _ _ _ hmin hmax with ⟨h1, h2⟩ | ⟨h1, h2⟩
    · have hI : i' = i := ids_inj hnd (by omega) (by omega) h1
      have hJ : j' = j := ids_inj hnd (by omega) (by omega) h2
      rw [hI, hJ]
      simp [containRow, flagOf, hgeq]
    · have hI : i' = j := ids_inj hnd (by omega) (by omega) h1
      have hJ : j' = i := ids_inj hnd (by omega) (by omega) h2
      rw [hI, hJ]
      simp [containRow, flagOf, hgeq]

/-- Closed check of C4 on two byte-identical squares. -/
theorem claim_duplicate_flag_check :
    pairCount (containRowsOf (checkContainment exGdfDup none 1 (fun _ => false)))
      (min ((usedIds exGdfDup none).getD 0 0) ((usedIds exGdfDup none).getD 1 0))
      (max ((usedIds exGdfDup none).getD 0 0) ((usedIds exGdfDup none).getD 1 0)) = 1 ∧
    flagOf ((containRowsOf
        (checkContainment exGdfDup none 1 (fun _ => false))).getD 0 [])
      = some 1 := by
  have h := claim_duplicate_flag exGdfDup none 1 0 1 (by decide) (by decide)
    (by decide) (by decide) (by decide) (by decide) (by decide) (by decide)
  exact ⟨h.2.1, h.2.2 _ (by decide) (by decide)⟩

/-- C2 counterexample: `check_containment` does not warn-and-continue on a
per-feature predicate-query failure.  On `exGdfC`, where only feature 2's
query fails and features 0 and 1 form a qualifying containment pair, the
whole call raises and no result collection is returned. -/
theorem claim_query_failure_cex :
    checkContainment exGdfC none 0 exQfail2 = Except.error 2 ∧
    gcontains (geomAt exGdfC.geoms 0) (geomAt exGdfC.geoms 1) = true ∧
    pairCount (containRowsOf (checkContainment exGdfC none 0 exQfail2)) 1 2 = 0 := by
  decide

/-- C2 amended: in `check_overlap` a failed bounds query for one feature
is logged as a warning, that feature's iteration is skipped, and every
qualifying pair whose outer subject is a non-failing feature is still
reported exactly once; in `check_containment` there is no per-feature
handling — a failing predicate query aborts the whole call with an
error. -/
theorem claim_query_failure_amended (gdf : Gdf) (idCol : Option String)
    (t mA : ℚ) (qfail : Nat → Bool) (k : Nat)
    (hk : k < gdf.geoms.length) (hqk : qfail k = true)
    (hother : ∀ i, i ≠ k → qfail i = false) :
    Warning.queryError k ∈ (checkOverlap gdf idCol t qfail).warnings ∧
    (∀ i j, (usedIds gdf idCol).Nodup →
       (usedIds gdf idCol).length = gdf.geoms.length →
       i ≠ j → i < gdf.geoms.length → j < gdf.geoms.length → i ≠ k →
       gOverlaps (geomAt gdf.geoms i) (geomAt gdf.geoms j) = true →
       t ≤ garea (geomAt gdf.geoms i ∩ geomAt gdf.geoms j) →
       pairCount (checkOverlap gdf idCol t qfail).rows
         (min ((usedIds gdf idCol).getD i 0) ((usedIds gdf idCol).getD j 0))
         (max ((usedIds gdf idCol).getD i 0) ((usedIds gdf idCol).getD j 0)) = 1) ∧
    (∃ e, checkContainment gdf idCol mA qfail = Except.error e ∧
      qfail e = true) := by
  refine ⟨?_, ?_, ?_⟩
  · rw [checkOverlap_warnings]
    refine List.mem_append.mpr (Or.inr ?_)
    exact List.mem_filterMap.mpr ⟨k, List.mem_range.mpr hk, by rw [if_pos hqk]⟩
  · intro i j hnd hlen hij hi hj hik hov hth
    rw [checkOverlap_rows]
    exact overlap_pair_unique_core _ _ _ _ _ i j hnd hlen (List.Perm.refl _)
      (hother i hik) hij hi hj hov hth
  · exact checkContainment_error _ _ _ _ ⟨k, List.mem_range.mpr hk, hqk⟩

/-- Closed check of the amended C2 on `exGdfC` with feature 2 failing. -/
theorem claim_query_failure_check :
    Warning.queryError 2 ∈ (checkOverlap exGdfC none 0 exQfail2).warnings ∧
    pairCount (checkOverlap exGdfC none 0 exQfail2).rows
      (min ((usedIds exGdfC none).getD 0 0) ((usedIds exGdfC none).getD 2 0))
      (max ((usedIds exGdfC none).getD 0 0) ((usedIds exGdfC none).getD 2 0)) = 1 ∧
    (∃ e, checkContainment exGdfC none 0 exQfail2 = Except.error e ∧
      exQfail2 e = true) := by
  have h := claim_query_failure_amended exGdfC none 0 0 exQfail2 2
    (by decide) (by decide) (fun i hi => by simp [exQfail2, hi])
  exact ⟨h.1, h.2.1 0 2 (by decide) (by decide) (by decide) (by decide)
    (by decide) (by decide) (by decide) (by decide), h.2.2⟩

/-- C3 (code bug): on a one-square FeatureSet, whose union has no interior
rings, `check_gap` returns an empty result but emits no warning at all.
The warning branch tests row-emptiness of the dissolved frame (`not
...tolist()`, false for the truthy `[[]]`), not emptiness of the
interior-ring list. -/
theorem claim_gap_warning_bug :
    interiorRings (unionAll exGdfSquare.geoms) = [] ∧
    (checkGap exGdfSquare none).rows = [] ∧
    (checkGap exGdfSquare none).warnings = [] ∧
    Warning.noGaps ∉ (checkGap exGdfSquare none).warnings := by
  decide

/-- C10: the result frame `check_gap` builds in its no-interiors branch
has the columns `(id_1, id_2, geometry, area)`, while every result built
from gap boundaries has the columns `(geometry, feature_touches)`; the two
shapes differ, so the caller gets no uniform record shape. -/
theorem claim_gap_schema (gdf : Gdf) (idCol : Option String) :
    (dissInteriors gdf = [] →
      (checkGap gdf idCol).resultCols
        = [effIdCol idCol ++ "_1", effIdCol idCol ++ "_2", "geometry", "area"]) ∧
    (dissInteriors gdf ≠ [] →
      (checkGap gdf idCol).resultCols = ["geometry", "feature_touches"]) ∧
    [effIdCol idCol ++ "_1", effIdCol idCol ++ "_2", "geometry", "area"]
      ≠ ["geometry", "feature_touches"] := by
  refine ⟨?_, ?_, ?_⟩
  · intro h
    simp only [checkGap]
    rw [if_pos h]
  · intro h
    simp only [checkGap]
    rw [if_neg h]
  · intro hcon
    have hl := congrArg List.length hcon
    simp at hl

/-- Closed check of C10: the two schemas, observed on an empty FeatureSet
and on a one-square FeatureSet. -/
theorem claim_gap_schema_check :
    (checkGap exGdfEmpty none).resultCols
      = [effIdCol none ++ "_1", effIdCol none ++ "_2", "geometry", "area"] ∧
    (checkGap exGdfSquare none).resultCols = ["geometry", "feature_touches"] :=
  ⟨(claim_gap_schema exGdfEmpty none).1 (by decide),
   (claim_gap_schema exGdfSquare none).2.1 (by decide)⟩

/-- C6 counterexample: designating the reserved column name `temp_index`
as the identifier column makes `check_overlap` overwrite and then delete
the caller-supplied id values. -/
theorem claim_id_assignment_cex :
    getCol (checkOverlap exGdfTmpId (some "temp_index") 0
        (fun _ => false)).gdf.attrs "temp_index"
      ≠ getCol exGdfTmpId.attrs "temp_index" := by
  decide

/-- C6 amended: with no designated identifier column, every detector
assigns the sequential ids 1..n in input order before processing and
leaves them in the returned frame; a designated identifier column is
never modified, provided it is not named `temp_index`. -/
theorem claim_id_assignment_amended (gdf : Gdf) (t mA : ℚ)
    (qfail : Nat → Bool) (c : String) (hc : c ≠ "temp_index") :
    usedIds gdf none = seqIds gdf.geoms.length ∧
    gapIds gdf none = seqIds gdf.geoms.length ∧
    getCol (checkOverlap gdf none t qfail).gdf.attrs "id"
      = seqIds gdf.geoms.length ∧
    getCol (checkGap gdf none).gdf.attrs "id" = seqIds gdf.geoms.length ∧
    getCol (containAttrsOf (checkContainment gdf none mA (fun _ => false))) "id"
      = seqIds gdf.geoms.length ∧
    usedIds gdf (some c) = getCol gdf.attrs c ∧
    getCol (checkOverlap gdf (some c) t qfail).gdf.attrs c = getCol gdf.attrs c ∧
    getCol (checkGap gdf (some c)).gdf.attrs c = getCol gdf.attrs c ∧
    getCol (containAttrsOf (checkContainment gdf (some c) mA (fun _ => false))) c
      = getCol gdf.attrs c := by
  refine ⟨usedIds_none gdf, ?_, ?_, ?_, ?_, usedIds_some gdf c hc, ?_, ?_, ?_⟩
  · exact getCol_setCol_self _ _ _
  · rw [checkOverlap_attrs, getCol_delCol_ne _ "temp_index" "id" (by decide)]
    exact usedIds_none gdf
  · rw [checkGap_attrs]
    exact getCol_setCol_self _ _ _
  · rw [checkContainment_ok_attrs _ _ _ _ (fun _ _ => rfl),
      getCol_delCol_ne _ "temp_index" "id" (by decide)]
    exact usedIds_none gdf
  · rw [checkOverlap_attrs, getCol_delCol_ne _ "temp_index" c hc]
    exact usedIds_some gdf c hc
  · rw [checkGap_attrs]
    rfl
  · rw [checkContainment_ok_attrs _ _ _ _ (fun _ _ => rfl),
      getCol_delCol_ne _ "temp_index" c hc]
    exact usedIds_some gdf c hc

/-- Closed check of the amended C6. -/
theorem claim_id_assignment_check :
    usedIds exGdfTmp none = seqIds exGdfTmp.geoms.length ∧
    getCol (checkOverlap exGdfTmp (some "bID") 0 (fun _ => false)).gdf.attrs "bID"
      = getCol exGdfTmp.attrs "bID" := by
  have h := claim_id_assignment_amended exGdfTmp 0 0 (fun _ => false) "bID"
    (by decide)
  exact ⟨h.1, h.2.2.2.2.2.2.1⟩

/-- C9 counterexample: an input that already carries a column named
`temp_index` does not get its attribute columns back — the helper-column
deletion removes the caller's column. -/
theorem claim_frame_cex :
    (checkOverlap exGdfTmp (some "bID") 0 (fun _ => false)).gdf.attrs
      ≠ exGdfTmp.attrs := by
  decide

/-- C9 amended: provided the input has no attribute column named
`temp_index`, a successful `check_overlap` or `check_containment` call
returns the frame with its attribute columns unchanged except for the
sequential id column written when no identifier column is designated; in
particular the internal `temp_index` helper column is removed again
before returning. -/
theorem claim_frame_amended (gdf : Gdf) (idCol : Option String) (t mA : ℚ)
    (qfail : Nat → Bool) (h : "temp_index" ∉ gdf.attrs.map Prod.fst) :
    (checkOverlap gdf idCol t qfail).gdf.attrs = effAttrs gdf idCol ∧
    containAttrsOf (checkContainment gdf idCol mA (fun _ => false))
      = effAttrs gdf idCol ∧
    (∀ c, idCol = some c → effAttrs gdf idCol = gdf.attrs) ∧
    (∀ m, m ≠ "id" → getCol (effAttrs gdf idCol) m = getCol gdf.attrs m) := by
  have hw : "temp_index" ∉ (effAttrs gdf idCol).map Prod.fst := by
    cases idCol with
    | none => exact not_mem_map_fst_setCol h (by decide)
    | some c => exact h
  refine ⟨?_, ?_, ?_, ?_⟩
  · rw [checkOverlap_attrs, workAttrs]
    exact delCol_setCol _ _ _ hw
  · rw [checkContainment_ok_attrs _ _ _ _ (fun _ _ => rfl), workAttrs]
    exact delCol_setCol _ _ _ hw
  · intro c hcol
    rw [hcol]
    rfl
  · intro m hm
    cases idCol with
    | none => exact getCol_setCol_ne _ _ _ _ hm
    | some c => rfl

/-- Closed check of the amended C9 on an input without a `temp_index`
column. -/
theorem claim_frame_check :
    (checkOverlap exGdfC none 0 (fun _ => false)).gdf.attrs
      = effAttrs exGdfC none ∧
    containAttrsOf (checkContainment exGdfC none 0 (fun _ => false))
      = effAttrs exGdfC none ∧
    getCol (effAttrs exGdfC none) "other" = getCol exGdfC.attrs "other" := by
  have h := claim_frame_amended exGdfC none 0 0 (fun _ => false) (by decide)
  exact ⟨h.1, h.2.1, h.2.2.2 "other" (by decide)⟩

end TopoCheck
